import Mathlib

/-!
Verification of the FinBossAPI personal-finance backend.

This file gives a shallow embedding of the token issuance/rotation subsystem
(src/utils/jwt.ts, src/utils/refreshTokenStore.ts, src/controllers/authController.ts),
the budget evaluation subsystem (src/controllers/budgetController.ts), the
analytics comparison (src/controllers/analyticsController.ts), and the category
endpoints (src/controllers/categoryController.ts with src/middleware/auth.ts),
and proves the spec's claims about them.

Modelling conventions:
- Monetary amounts are rationals (JS numbers used for decimal arithmetic).
- Dates are integers (millisecond timestamps); the host clock behind
  `new Date()` is abstracted as a `Now` structure carrying the derived
  period floors, and JS `Date` string parsing as a function parameter.
- A signed JWT is modelled as its payload together with the secret it was
  signed with; `jwt.verify` succeeds exactly when the secret matches and the
  token is not expired.
- The Mongo collections are modelled as a keyed map (users, looked up by id
  only) or as lists of documents (categories, where `findOne` returns the
  first match).
-/

namespace FinBoss

/-- Transaction/category type enum (`'income' | 'expense'`). -/
inductive TxnType where
  | income
  | expense
deriving DecidableEq, Repr

/-- Budget period enum (`'monthly' | 'yearly'`). -/
inductive Period where
  | monthly
  | yearly
deriving DecidableEq, Repr

instance : Fintype Period where
  elems := {Period.monthly, Period.yearly}
  complete := by intro p; cases p <;> decide

/-! ## JWT model (src/utils/jwt.ts, current revision with type discriminators) -/

/-- Token type discriminator embedded in the signed payload (`type: 'access' | 'refresh'`). -/
inductive TokenType where
  | access
  | refresh
deriving DecidableEq, Repr

/-- The signed JWT payload: `{ userId, email, type }` plus the random `jti`
carried by refresh tokens and the expiry claim set by `expiresIn`. -/
structure TokenPayload where
  userId : String
  email : String
  type : TokenType
  jti : Option String
  exp : Nat
deriving DecidableEq, Repr

/-- A signed JWT, modelled as its payload plus the secret used by `jwt.sign`.
`jwt.verify` with a secret succeeds exactly when the secrets coincide and the
token has not expired; the opaque string encoding is not modelled. -/
structure SignedToken where
  payload : TokenPayload
  secret : String
deriving DecidableEq, Repr

/-- `JWT_EXPIRY = '7d'`, in seconds. -/
def JWT_EXPIRY : Nat := 7 * 24 * 60 * 60

/-- `REFRESH_TOKEN_EXPIRY = '30d'`, in seconds. -/
def REFRESH_TOKEN_EXPIRY : Nat := 30 * 24 * 60 * 60

/-- The two signing secrets from the environment (`JWT_SECRET`, `JWT_REFRESH_SECRET`). -/
structure Secrets where
  jwtSecret : String
  jwtRefreshSecret : String
deriving DecidableEq, Repr

/-- `generateAccessToken(userId, email)`: signs `{ userId, email, type: 'access' }`
with `JWT_SECRET` and expiry `JWT_EXPIRY`. -/
def generateAccessToken (s : Secrets) (now : Nat) (userId email : String) : SignedToken :=
  { payload := { userId := userId, email := email, type := TokenType.access,
                 jti := none, exp := now + JWT_EXPIRY },
    secret := s.jwtSecret }

/-- `generateRefreshToken(userId, email)`: signs `{ userId, email, type: 'refresh', jti }`
with `JWT_REFRESH_SECRET` and expiry `REFRESH_TOKEN_EXPIRY`; `jti` is 16 random
bytes, supplied here as an argument. -/
def generateRefreshToken (s : Secrets) (now : Nat) (jti : String) (userId email : String) :
    SignedToken :=
  { payload := { userId := userId, email := email, type := TokenType.refresh,
                 jti := some jti, exp := now + REFRESH_TOKEN_EXPIRY },
    secret := s.jwtRefreshSecret }

/-- `jwt.verify(token, secret)`: succeeds iff the token was signed with `secret`
and is not expired at `now`. -/
def jwtVerify (t : SignedToken) (secret : String) (now : Nat) : Option TokenPayload :=
  if t.secret = secret ∧ now ≤ t.payload.exp then some t.payload else none

/-- `verifyAccessToken(token)`: verifies against `JWT_SECRET`, then checks
`decoded.type === 'access'`. Any failure (bad signature, expiry, wrong type) is
caught and replaced by the single opaque message, so no internal detail leaks. -/
def verifyAccessToken (s : Secrets) (now : Nat) (t : SignedToken) : Except String TokenPayload :=
  match jwtVerify t s.jwtSecret now with
  | none => Except.error "Invalid or expired access token"
  | some decoded =>
      if decoded.type ≠ TokenType.access then Except.error "Invalid or expired access token"
      else Except.ok decoded

/-- `verifyRefreshToken(token)`: verifies against `JWT_REFRESH_SECRET`, then checks
`decoded.type === 'refresh'`; all failures collapse to one opaque message. -/
def verifyRefreshToken (s : Secrets) (now : Nat) (t : SignedToken) : Except String TokenPayload :=
  match jwtVerify t s.jwtRefreshSecret now with
  | none => Except.error "Invalid or expired refresh token"
  | some decoded =>
      if decoded.type ≠ TokenType.refresh then Except.error "Invalid or expired refresh token"
      else Except.ok decoded

/-! ## Refresh-token store (src/utils/refreshTokenStore.ts) -/

/-- One stored refresh-token entry embedded in the user document
(`{ tokenHash, createdAt }`); timestamps in milliseconds. -/
structure RefreshTokenEntry where
  tokenHash : String
  createdAt : Nat
deriving DecidableEq, Repr

/-- A user document, restricted to the fields the token subsystem reads. -/
structure UserDoc where
  id : String
  email : String
  refreshTokens : List RefreshTokenEntry
deriving DecidableEq, Repr

/-- The users collection: Mongo `_id` is unique, so `findById` is a map lookup. -/
abbrev UserDb : Type := String → Option UserDoc

/-- MAX_SESSIONS = 5. -/
def MAX_SESSIONS : Nat := 5

/-- The descending-`createdAt` comparison used by
`.sort((a, b) => b.createdAt.getTime() - a.createdAt.getTime())`:
`a` may precede `b` exactly when the comparator is nonpositive. -/
def newestFirst (a b : RefreshTokenEntry) : Prop := b.createdAt ≤ a.createdAt

instance : DecidableRel newestFirst := fun a b => Nat.decLe b.createdAt a.createdAt

instance : IsTotal RefreshTokenEntry newestFirst :=
  ⟨fun a b => Nat.le_total b.createdAt a.createdAt⟩

instance : IsTrans RefreshTokenEntry newestFirst :=
  ⟨fun _ _ _ hab hbc => Nat.le_trans hbc hab⟩

/-- `storeRefreshToken(userId, rawToken)`: hashes the token, pushes
`{ tokenHash, createdAt: new Date() }` onto the user's list, and when the list
exceeds `MAX_SESSIONS` keeps only the `MAX_SESSIONS` newest entries (sort
descending by `createdAt`, slice). No-op when the user does not exist. -/
def storeRefreshToken (sha256 : SignedToken → String) (now : Nat) (db : UserDb)
    (userId : String) (rawToken : SignedToken) : UserDb :=
  let tokenHash := sha256 rawToken
  match db userId with
  | none => db
  | some user =>
      let pushed := user.refreshTokens ++ [{ tokenHash := tokenHash, createdAt := now }]
      let kept :=
        if MAX_SESSIONS < pushed.length then (List.insertionSort newestFirst pushed).take MAX_SESSIONS
        else pushed
      fun i => if i = userId then some { user with refreshTokens := kept } else db i

/-- `verifyStoredRefreshToken(userId, rawToken)`: true iff the hash of the
presented token is among the user's stored entries. -/
def verifyStoredRefreshToken (sha256 : SignedToken → String) (db : UserDb)
    (userId : String) (rawToken : SignedToken) : Bool :=
  let tokenHash := sha256 rawToken
  match db userId with
  | none => false
  | some user => user.refreshTokens.any fun entry => entry.tokenHash = tokenHash

/-- `removeRefreshToken(userId, rawToken)`: `findByIdAndUpdate` with
`$pull: refreshTokens by tokenHash` — drops every entry whose hash matches. -/
def removeRefreshToken (sha256 : SignedToken → String) (db : UserDb)
    (userId : String) (rawToken : SignedToken) : UserDb :=
  let tokenHash := sha256 rawToken
  fun i =>
    if i = userId then
      (db i).map fun user =>
        { user with refreshTokens := user.refreshTokens.filter fun entry => entry.tokenHash ≠ tokenHash }
    else db i

/-- `removeAllRefreshTokens(userId)`: `findByIdAndUpdate` with
`$set: refreshTokens to the empty list`. -/
def removeAllRefreshTokens (db : UserDb) (userId : String) : UserDb :=
  fun i =>
    if i = userId then (db i).map fun user => { user with refreshTokens := [] }
    else db i

/-! ## Refresh endpoint (src/controllers/authController.ts, refreshToken) -/

/-- Outcome of the refresh endpoint: 200 with a fresh token pair, 400 when the
body carries no token, or 401. The 401 message is the verification error in
non-production environments (`getErrorMessage`); production substitutes a
generic fallback, which does not affect the status code. -/
inductive RefreshResult where
  | success (accessToken refreshToken : SignedToken)
  | badRequest (message : String)
  | unauthorized (message : String)
deriving DecidableEq, Repr

/-- `refreshToken(req, res)`: requires a token in the body, verifies its
signature and type, looks up the user, and checks the stored hash. A missing
hash is treated as possible theft: all of the user's stored hashes are purged
and the call fails 401. Otherwise the presented token's hash is consumed, a new
access/refresh pair is issued, and the new refresh hash is stored. `freshJti`
stands for the random `jti` drawn inside `generateRefreshToken`. -/
def refreshToken (s : Secrets) (sha256 : SignedToken → String) (now : Nat)
    (freshJti : String) (db : UserDb) (token : Option SignedToken) :
    RefreshResult × UserDb :=
  match token with
  | none => (RefreshResult.badRequest "Refresh token is required", db)
  | some t =>
      match verifyRefreshToken s now t with
      | Except.error e => (RefreshResult.unauthorized e, db)
      | Except.ok decoded =>
          match db decoded.userId with
          | none => (RefreshResult.unauthorized "User not found", db)
          | some user =>
              if verifyStoredRefreshToken sha256 db user.id t then
                let db1 := removeRefreshToken sha256 db user.id t
                let accessToken := generateAccessToken s now user.id user.email
                let newRefreshToken := generateRefreshToken s now freshJti user.id user.email
                let db2 := storeRefreshToken sha256 now db1 user.id newRefreshToken
                (RefreshResult.success accessToken newRefreshToken, db2)
              else
                (RefreshResult.unauthorized "Refresh token has been revoked",
                  removeAllRefreshTokens db user.id)

/-! ## Transactions, budgets, and spend aggregation (src/controllers/budgetController.ts) -/

/-- A transaction document (src/models/Transaction.ts), restricted to the
fields the aggregations read; `date` is a millisecond timestamp. -/
structure Txn where
  userId : String
  type : TxnType
  amount : ℚ
  category : String
  date : Int
deriving DecidableEq, Repr

/-- A budget document (src/models/Budget.ts). -/
structure BudgetDoc where
  userId : String
  category : String
  limit : ℚ
  period : Period
deriving DecidableEq, Repr

/-- The current host clock, abstracted to the two period floors `getPeriodStart`
derives from `new Date()`: the first day of the current calendar month and
January 1 of the current calendar year. -/
structure Now where
  monthStart : Int
  yearStart : Int
deriving DecidableEq, Repr

/-- `getPeriodStart(period)`: monthly gives the first day of the current month,
anything else (yearly) January 1 of the current year. -/
def getPeriodStart (now : Now) (period : Period) : Int :=
  match period with
  | Period.monthly => now.monthStart
  | Period.yearly => now.yearStart

/-- `budgetSpentKey(category, period)` builds the composite map key. The code
uses the string `category ++ "::" ++ period`; since the two period names are
distinct and neither contains `::` nor is a suffix of the other, that encoding
is injective, so the key is modelled as the pair. -/
def budgetSpentKey (category : String) (period : Period) : String × Period :=
  (category, period)

/-- First-occurrence deduplication, as iterating a JS `Set` built from a list. -/
def distinctList {α : Type} [DecidableEq α] : List α → List α
  | [] => []
  | x :: xs => x :: distinctList (xs.filter fun y => y ≠ x)
termination_by l => l.length
decreasing_by
  simp only [List.length_cons]
  exact Nat.lt_succ_of_le (List.length_filter_le _ _)

/-- Mongo `$group` by `$category` with `total: $sum of $amount`: one row per
distinct category among the matched transactions, carrying the amount sum. -/
def groupSumByCategory (ts : List Txn) : List (String × ℚ) :=
  (distinctList (ts.map Txn.category)).map fun c =>
    (c, ((ts.filter fun t => t.category = c).map Txn.amount).sum)

/-- `getSpentByCategory(userId, budgets)`: one aggregation per distinct period
value; each pass matches the user's expense transactions whose category belongs
to some budget of that period and whose date is at or after the period start,
groups them by category, and writes each row under its composite key. -/
def getSpentByCategory (now : Now) (txns : List Txn) (userId : String)
    (budgets : List BudgetDoc) : List ((String × Period) × ℚ) :=
  let periods := distinctList (budgets.map BudgetDoc.period)
  (periods.map fun period =>
    let periodStart := getPeriodStart now period
    let categories := (budgets.filter fun b => b.period = period).map BudgetDoc.category
    let expenses := groupSumByCategory (txns.filter fun t =>
      t.userId = userId ∧ t.category ∈ categories ∧ t.type = TxnType.expense ∧
        periodStart ≤ t.date)
    expenses.map fun row => (budgetSpentKey row.1 period, row.2)).flatten

/-- The number of `Transaction.aggregate` calls `getSpentByCategory` issues:
one per element of its deduplicated period list. -/
def aggregationPasses (budgets : List BudgetDoc) : Nat :=
  (distinctList (budgets.map BudgetDoc.period)).length

/-- `spentByCategory.get(key) || 0`: map lookup defaulting to 0. -/
def mapGetD (m : List ((String × Period) × ℚ)) (k : String × Period) : ℚ :=
  match m.find? fun e => e.1 = k with
  | some e => e.2
  | none => 0

/-- `calculateSpentAmount(userId, category, period)`: single-budget aggregate
matching the user's expense transactions of that category dated at or after the
period start, summed; `expenses[0]?.total || 0` yields 0 when nothing matched. -/
def calculateSpentAmount (now : Now) (txns : List Txn) (userId category : String)
    (period : Period) : ℚ :=
  let expenses := txns.filter fun t =>
    t.userId = userId ∧ t.category = category ∧ t.type = TxnType.expense ∧
      getPeriodStart now period ≤ t.date
  match expenses with
  | [] => 0
  | _ => (expenses.map Txn.amount).sum

/-! ## Budget status and decoration (src/controllers/budgetController.ts) -/

/-- One row of the budget-status overview response. -/
structure BudgetStatusRow where
  category : String
  limit : ℚ
  spent : ℚ
  remaining : ℚ
  percentageUsed : ℚ
  period : Period
  isOverBudget : Bool
  isNearBudget : Bool
  status : String
deriving DecidableEq, Repr

/-- The row `getBudgetStatus` builds for one budget: `isOverBudget` when spent
exceeds the limit, `isNearBudget` when spent exceeds 80 percent of it, and the
derived status string. -/
def budgetStatusRow (budget : BudgetDoc) (spent : ℚ) : BudgetStatusRow :=
  let isOverBudget : Bool := spent > budget.limit
  let isNearBudget : Bool := spent > budget.limit * 0.8
  { category := budget.category
    limit := budget.limit
    spent := spent
    remaining := budget.limit - spent
    percentageUsed := (spent / budget.limit) * 100
    period := budget.period
    isOverBudget := isOverBudget
    isNearBudget := isNearBudget
    status := if isOverBudget then "over" else if isNearBudget then "warning" else "ok" }

/-- The sort rank `statusOrder = { over: 0, warning: 1, ok: 2 }`. -/
def statusOrder (s : String) : Nat :=
  if s = "over" then 0 else if s = "warning" then 1 else 2

/-- `getBudgetStatus`: batch the spent amounts, decorate every budget into a
status row, and sort ascending by status rank (over, then warning, then ok). -/
def getBudgetStatus (now : Now) (txns : List Txn) (userId : String)
    (budgets : List BudgetDoc) : List BudgetStatusRow :=
  let spentByCategory := getSpentByCategory now txns userId budgets
  let budgetStatus := budgets.map fun budget =>
    budgetStatusRow budget (mapGetD spentByCategory (budgetSpentKey budget.category budget.period))
  List.insertionSort (fun a b => statusOrder a.status ≤ statusOrder b.status) budgetStatus

/-- A budget as returned by `getBudgets`: the stored document's fields spread
into the response together with the derived spend figures. -/
structure DecoratedBudget where
  userId : String
  category : String
  limit : ℚ
  period : Period
  spent : ℚ
  remaining : ℚ
  percentageUsed : ℚ
deriving DecidableEq, Repr

/-- The object `getBudgets` builds for one budget:
`{...budget.toObject(), spent, remaining: limit - spent, percentageUsed: (spent / limit) * 100}`.
It reads but never writes the stored budget. -/
def decorateBudget (budget : BudgetDoc) (spent : ℚ) : DecoratedBudget :=
  { userId := budget.userId
    category := budget.category
    limit := budget.limit
    period := budget.period
    spent := spent
    remaining := budget.limit - spent
    percentageUsed := (spent / budget.limit) * 100 }

/-! ## Analytics budget-vs-actual (src/controllers/analyticsController.ts) -/

/-- JS `Math.round`: nearest integer, ties toward positive infinity. -/
def jsRound (x : ℚ) : ℤ := Int.floor (x + 1 / 2)

/-- `Math.round(x * 100) / 100`: round to 2 decimal places. -/
def round2 (x : ℚ) : ℚ := (jsRound (x * 100) : ℚ) / 100

/-- One row of the budget-vs-actual comparison response. -/
structure ComparisonRow where
  category : String
  budgeted : ℚ
  actual : ℚ
  variance : ℚ
  variancePercent : ℚ
  period : Period
deriving DecidableEq, Repr

/-- The row `getBudgetVsActual` builds for one budget: variance is budgeted
minus actual, variancePercent is its share of budgeted (0 when budgeted is not
positive), and every monetary field is rounded to 2 decimal places. -/
def comparisonRow (budget : BudgetDoc) (actual : ℚ) : ComparisonRow :=
  let budgeted := budget.limit
  let variance := budgeted - actual
  let variancePercent := if budgeted > 0 then (variance / budgeted) * 100 else 0
  { category := budget.category
    budgeted := round2 budgeted
    actual := round2 actual
    variance := round2 variance
    variancePercent := round2 variancePercent
    period := budget.period }

/-- The transaction date filter built from the optional query bounds:
`$gte` and `$lte`, both inclusive; absent bounds are unconstrained. -/
def dateInRange (lo hi : Option Int) (d : Int) : Bool :=
  (match lo with
   | none => true
   | some a => a ≤ d) &&
  (match hi with
   | none => true
   | some b => d ≤ b)

/-- `strMap.get(key) || 0`: lookup in the per-category actuals map. -/
def strMapGetD (m : List (String × ℚ)) (k : String) : ℚ :=
  match m.find? fun e => e.1 = k with
  | some e => e.2
  | none => 0

/-- The aggregation and shaping phase of `getBudgetVsActual` after the date
bounds have been validated: match the user's expense transactions inside the
range, group actuals by category, build one comparison row per budget
(actual defaulting to 0), and sort ascending by variance. -/
def budgetVsActualRows (txns : List Txn) (userId : String) (lo hi : Option Int)
    (budgets : List BudgetDoc) : List ComparisonRow :=
  let actualSpending := groupSumByCategory (txns.filter fun t =>
    t.userId = userId ∧ dateInRange lo hi t.date ∧ t.type = TxnType.expense)
  let comparison := budgets.map fun budget =>
    comparisonRow budget (strMapGetD actualSpending budget.category)
  List.insertionSort (fun a b => a.variance ≤ b.variance) comparison

/-! ## Date-string validation and the analytics endpoint (src/controllers/analyticsController.ts) -/

/-- ASCII digit test, as the regex class for one digit. -/
def isDigitChar (c : Char) : Bool := decide ('0' ≤ c ∧ c ≤ '9')

/-- Consume exactly `n` digits, returning the remaining characters. -/
def takeDigits : Nat → List Char → Option (List Char)
  | 0, cs => some cs
  | _ + 1, [] => none
  | n + 1, c :: cs => if isDigitChar c then takeDigits n cs else none

/-- The optional fractional-seconds group of the ISO regex: either absent, or a
dot followed by at least one digit (greedily consumed). -/
def matchFracPart : List Char → Option (List Char)
  | '.' :: cs =>
      match cs with
      | c :: _ => if isDigitChar c then some (cs.dropWhile isDigitChar) else none
      | [] => none
  | cs => some cs

/-- The optional timezone group ending the ISO regex: empty, `Z`, or a sign
followed by two digits, an optional colon, and two digits. -/
def matchTimeZonePart : List Char → Bool
  | [] => true
  | ['Z'] => true
  | c :: rest =>
      (c = '+' || c = '-') &&
      (match takeDigits 2 rest with
       | none => false
       | some rest2 =>
           match rest2 with
           | ':' :: rest3 => takeDigits 2 rest3 = some []
           | _ => takeDigits 2 rest2 = some [])

/-- The time half of the ISO regex: `T`, hours, colon, minutes, optional
seconds with optional fraction, optional timezone, end of string. -/
def matchTimePart : List Char → Bool
  | 'T' :: cs1 =>
      (match takeDigits 2 cs1 with
       | none => false
       | some cs2 =>
           match cs2 with
           | ':' :: cs3 =>
               (match takeDigits 2 cs3 with
                | none => false
                | some cs4 =>
                    let afterSeconds : Option (List Char) :=
                      match cs4 with
                      | ':' :: cs5 =>
                          (match takeDigits 2 cs5 with
                           | none => none
                           | some cs6 => matchFracPart cs6)
                      | _ => some cs4
                    match afterSeconds with
                    | none => false
                    | some cs7 => matchTimeZonePart cs7)
           | _ => false)
  | _ => false

/-- `ISO_DATE_REGEX.test(value)`: anchored match of
four digits, dash, two digits, dash, two digits, then an optional time part. -/
def isoDateRegexTest (s : String) : Bool :=
  match takeDigits 4 s.toList with
  | none => false
  | some cs1 =>
      match cs1 with
      | '-' :: cs2 =>
          (match takeDigits 2 cs2 with
           | none => false
           | some cs3 =>
               match cs3 with
               | '-' :: cs4 =>
                   (match takeDigits 2 cs4 with
                    | none => false
                    | some cs5 =>
                        match cs5 with
                        | [] => true
                        | _ => matchTimePart cs5)
               | _ => false)
      | _ => false

/-- `isValidDate(value)`: the regex must match and `new Date(value)` must not
be `Invalid Date`. The host Date parser is abstracted as `jsParse`, returning
the parsed timestamp when the semantic check succeeds. -/
def isValidDate (jsParse : String → Option Int) (value : String) : Bool :=
  isoDateRegexTest value && (jsParse value).isSome

/-- `getBudgetVsActual` (src/controllers/analyticsController.ts, current
revision with strict validation): rejects a malformed `startDate` or `endDate`
with a 400-style validation error before running any aggregation; with valid
bounds it returns the sorted comparison rows computed over the inclusive date
range. -/
def getBudgetVsActual (jsParse : String → Option Int) (txns : List Txn)
    (budgets : List BudgetDoc) (userId : String) (startDate endDate : Option String) :
    Except String (List ComparisonRow) :=
  match startDate with
  | some sd =>
      if isValidDate jsParse sd then
        (match endDate with
         | some ed =>
             if isValidDate jsParse ed then
               Except.ok (budgetVsActualRows txns userId (jsParse sd) (jsParse ed) budgets)
             else Except.error "Invalid endDate format. Use ISO 8601 (YYYY-MM-DD)"
         | none => Except.ok (budgetVsActualRows txns userId (jsParse sd) none budgets))
      else Except.error "Invalid startDate format. Use ISO 8601 (YYYY-MM-DD)"
  | none =>
      match endDate with
      | some ed =>
          if isValidDate jsParse ed then
            Except.ok (budgetVsActualRows txns userId none (jsParse ed) budgets)
          else Except.error "Invalid endDate format. Use ISO 8601 (YYYY-MM-DD)"
      | none => Except.ok (budgetVsActualRows txns userId none none budgets)

/-! ## Categories (src/models/Category.ts, src/controllers/categoryController.ts) -/

/-- A category document; `userId` is null for system defaults. -/
structure CategoryDoc where
  id : String
  name : String
  type : TxnType
  icon : String
  color : String
  isDefault : Bool
  userId : Option String
deriving DecidableEq, Repr

/-- The categories collection; `findOne` returns the first matching document. -/
abbrev CategoryDb : Type := List CategoryDoc

/-- Hex digit test, case-insensitive, as in the color regex character class. -/
def isHexDigitChar (c : Char) : Bool :=
  decide (('0' ≤ c ∧ c ≤ '9') ∨ ('a' ≤ c ∧ c ≤ 'f') ∨ ('A' ≤ c ∧ c ≤ 'F'))

/-- The color regex: `#` followed by exactly six hex digits. -/
def hexColorTest (s : String) : Bool :=
  match s.toList with
  | '#' :: rest => rest.length = 6 && rest.all isHexDigitChar
  | _ => false

/-- `mongoose.Types.ObjectId.isValid(id)` for strings: a 24-character hex
string, or any 12-character string. -/
def isValidObjectId (id : String) : Bool :=
  decide (id.length = 12) || (decide (id.length = 24) && id.toList.all isHexDigitChar)

/-- The optional fields of a category update request body; the code skips a
field when it is absent (or empty, JS falsiness — modelled as absence). -/
structure CategoryUpdateBody where
  name : Option String
  icon : Option String
  color : Option String
deriving DecidableEq, Repr

/-- `updateCategory(req, res)` for an authenticated user: validates the id
format, looks the category up filtered by ownership (`{_id: id, userId}`),
rejects defaults, validates the optional color, checks the new name against
the user's own and the default categories, and saves the updated document. -/
def updateCategory (db : CategoryDb) (userId id : String) (body : CategoryUpdateBody) :
    Except (Nat × String) CategoryDoc × CategoryDb :=
  if ¬ isValidObjectId id then (Except.error (400, "Invalid ID format"), db)
  else
    match db.find? fun c => c.id = id ∧ c.userId = some userId with
    | none => (Except.error (404, "Category not found"), db)
    | some category =>
        if category.isDefault then
          (Except.error (403, "Cannot modify default categories"), db)
        else
          let afterColor : Except (Nat × String) CategoryDoc :=
            match body.color with
            | none => Except.ok category
            | some color =>
                if hexColorTest color then Except.ok { category with color := color }
                else Except.error (400, "Color must be a valid hex code (e.g., #FF5733)")
          match afterColor with
          | Except.error e => (Except.error e, db)
          | Except.ok cat1 =>
              let afterName : Except (Nat × String) CategoryDoc :=
                match body.name with
                | none => Except.ok cat1
                | some name =>
                    match db.find? fun c =>
                        c.name = name.toLower ∧ c.id ≠ id ∧
                          (c.userId = some userId ∨ c.isDefault) with
                    | some _ => Except.error (409, "Category name already exists")
                    | none => Except.ok { cat1 with name := name.toLower }
              match afterName with
              | Except.error e => (Except.error e, db)
              | Except.ok cat2 =>
                  let saved :=
                    match body.icon with
                    | none => cat2
                    | some icon => { cat2 with icon := icon }
                  (Except.ok saved, db.map fun c => if c.id = id then saved else c)

/-- `deleteCategory(req, res)` for an authenticated user: validates the id
format, looks the category up filtered by ownership, rejects defaults, then
`findByIdAndDelete`. -/
def deleteCategory (db : CategoryDb) (userId id : String) :
    Except (Nat × String) Unit × CategoryDb :=
  if ¬ isValidObjectId id then (Except.error (400, "Invalid ID format"), db)
  else
    match db.find? fun c => c.id = id ∧ c.userId = some userId with
    | none => (Except.error (404, "Category not found"), db)
    | some category =>
        if category.isDefault then
          (Except.error (403, "Cannot delete default categories"), db)
        else (Except.ok (), db.filter fun c => c.id ≠ id)

/-! ## Optional authentication and the category listing
(src/middleware/auth.ts, src/routes/categories.ts, getCategories) -/

/-- `getErrorMessage(error, fallback)` (src/utils/errorResponse.ts) applied to
an `Error` whose message is known: the fallback in production, the message
otherwise. -/
def getErrorMessage (isProduction : Bool) (message fallback : String) : String :=
  if isProduction then fallback else message

/-- The Authorization header as `optionalAuth` case-splits on it: a header
starting with the Bearer prefix carries a token; any other value is treated
like an absent header. The opaque JWT string is not modelled, so a Bearer
header is represented by the token it carries. -/
inductive AuthHeader where
  | bearer (token : SignedToken)
  | other (raw : String)
deriving DecidableEq, Repr

/-- The optional `type` query filter of `getCategories`: values outside the
two-member enum leave the filter unset. -/
def typeMatches (qtype : Option TxnType) (c : CategoryDoc) : Bool :=
  match qtype with
  | none => true
  | some ty => c.type = ty

/-- The ownership half of the `getCategories` filter: authenticated requests
see defaults plus their own categories; anonymous requests see only defaults. -/
def categoryVisible (user : Option TokenPayload) (c : CategoryDoc) : Bool :=
  match user with
  | some u => c.isDefault || c.userId = some u.userId
  | none => c.isDefault

/-- `getCategories(req, res)`: `Category.find(filter).sort(by name)`. -/
def getCategories (db : CategoryDb) (user : Option TokenPayload) (qtype : Option TxnType) :
    List CategoryDoc :=
  List.insertionSort (fun a b => ¬ b.name < a.name)
    (db.filter fun c => typeMatches qtype c && categoryVisible user c)

/-- The category-listing route `GET categories` composed with `optionalAuth`:
no header (or a non-Bearer one) proceeds anonymously; a Bearer token must
verify, else 401; on success the payload's user is attached. -/
def optionalAuthGetCategories (s : Secrets) (now : Nat) (isProduction : Bool)
    (db : CategoryDb) (header : Option AuthHeader) (qtype : Option TxnType) :
    Except (Nat × String) (List CategoryDoc) :=
  match header with
  | none => Except.ok (getCategories db none qtype)
  | some (AuthHeader.other _) => Except.ok (getCategories db none qtype)
  | some (AuthHeader.bearer t) =>
      match verifyAccessToken s now t with
      | Except.error e =>
          Except.error (401, getErrorMessage isProduction e "Invalid or expired token")
      | Except.ok decoded => Except.ok (getCategories db (some decoded) qtype)

end FinBoss

namespace FinBoss

/-! ## Theorems -/

/-- In a pairwise-related list, every element kept by `take n` is related to
every element discarded into `drop n`. -/
theorem pairwise_take_drop {α : Type} {R : α → α → Prop} {l : List α}
    (h : List.Pairwise R l) (n : Nat) :
    ∀ x ∈ l.take n, ∀ y ∈ l.drop n, R x y := by
  have h' : List.Pairwise R (l.take n ++ l.drop n) := by
    rw [List.take_append_drop]; exact h
  exact (List.pairwise_append.1 h').2.2

/-- C2: every issued token carries its type discriminator in the signed payload,
and verification enforces it: verifying a refresh token as an access token (or
vice versa) fails, at any verification time and for any secrets, and the error
is the fixed opaque message exposing no failure detail. -/
theorem cross_type_token_verification_rejects (s : Secrets) (issuedAt checkedAt : Nat)
    (jti userId email : String) :
    (generateAccessToken s issuedAt userId email).payload.type = TokenType.access ∧
    (generateRefreshToken s issuedAt jti userId email).payload.type = TokenType.refresh ∧
    verifyAccessToken s checkedAt (generateRefreshToken s issuedAt jti userId email) =
      Except.error "Invalid or expired access token" ∧
    verifyRefreshToken s checkedAt (generateAccessToken s issuedAt userId email) =
      Except.error "Invalid or expired refresh token" := by
  refine ⟨rfl, rfl, ?_, ?_⟩
  · unfold verifyAccessToken jwtVerify generateRefreshToken
    by_cases h : s.jwtRefreshSecret = s.jwtSecret ∧ checkedAt ≤ issuedAt + REFRESH_TOKEN_EXPIRY
    · simp [h]
    · simp [h]
  · unfold verifyRefreshToken jwtVerify generateAccessToken
    by_cases h : s.jwtSecret = s.jwtRefreshSecret ∧ checkedAt ≤ issuedAt + JWT_EXPIRY
    · simp [h]
    · simp [h]

/-- C3: after `storeRefreshToken` completes on an existing user (whose stored
entries carry pairwise-distinct creation timestamps, all earlier than the new
entry's), the stored list has at most `MAX_SESSIONS = 5` entries, contains the
hash of the newly stored token, consists only of previously stored entries plus
the new one, and every evicted entry is strictly older than every kept entry
(oldest-first eviction). -/
theorem storeRefreshToken_cap_and_oldest_first_eviction
    (sha256 : SignedToken → String) (now : Nat) (db : UserDb)
    (uid : String) (raw : SignedToken) (u : UserDoc)
    (hu : db uid = some u)
    (hold : ∀ e ∈ u.refreshTokens, e.createdAt < now)
    (hnd : (u.refreshTokens.map RefreshTokenEntry.createdAt).Nodup) :
    ∃ u1, storeRefreshToken sha256 now db uid raw uid = some u1 ∧
      u1.refreshTokens.length ≤ MAX_SESSIONS ∧
      sha256 raw ∈ u1.refreshTokens.map RefreshTokenEntry.tokenHash ∧
      (∀ e ∈ u1.refreshTokens,
        e ∈ u.refreshTokens ++ [{ tokenHash := sha256 raw, createdAt := now }]) ∧
      (∀ e ∈ u.refreshTokens, e ∉ u1.refreshTokens →
        ∀ k ∈ u1.refreshTokens, e.createdAt < k.createdAt) := by
  unfold storeRefreshToken
  rw [hu]
  simp only
  set newEntry : RefreshTokenEntry := { tokenHash := sha256 raw, createdAt := now } with hnew
  set pushed := u.refreshTokens ++ [newEntry] with hpushed
  have hnow_not : now ∉ u.refreshTokens.map RefreshTokenEntry.createdAt := by
    intro hmem
    rcases List.mem_map.1 hmem with ⟨e, he, heq⟩
    exact absurd heq (Nat.ne_of_lt (hold e he))
  have hpnd : (pushed.map RefreshTokenEntry.createdAt).Nodup := by
    rw [hpushed, List.map_append]
    simp only [List.map_cons, List.map_nil]
    rw [List.nodup_append]
    refine ⟨hnd, List.nodup_singleton _, ?_⟩
    intro a ha hb
    simp only [List.mem_singleton] at hb
    subst hb
    exact hnow_not ha
  have hpushed_nodup : pushed.Nodup := hpnd.of_map
  have hmem_pushed : ∀ e ∈ pushed, e = newEntry ∨ e ∈ u.refreshTokens := by
    intro e he
    rcases List.mem_append.1 he with h | h
    · exact Or.inr h
    · exact Or.inl (List.mem_singleton.1 h)
  by_cases hlen : MAX_SESSIONS < pushed.length
  · -- eviction branch: keep the 5 newest of the descending sort
    rw [if_pos hlen]
    set sorted := List.insertionSort newestFirst pushed with hsorted
    have hperm : sorted.Perm pushed := List.perm_insertionSort newestFirst pushed
    have hsnodup : sorted.Nodup := hperm.nodup_iff.2 hpushed_nodup
    have hPS : List.Pairwise newestFirst sorted := List.sorted_insertionSort newestFirst pushed
    have hsplit : sorted.take MAX_SESSIONS ++ sorted.drop MAX_SESSIONS = sorted :=
      List.take_append_drop _ _
    have hdisj : ∀ x ∈ sorted.take MAX_SESSIONS, x ∉ sorted.drop MAX_SESSIONS := by
      have := List.nodup_append.1 (by rw [hsplit]; exact hsnodup)
      intro x hx hx'
      exact this.2.2 hx hx'
    have htd := pairwise_take_drop hPS MAX_SESSIONS
    have hinj := List.inj_on_of_nodup_map hpnd
    have hnew_mem_sorted : newEntry ∈ sorted :=
      hperm.mem_iff.2 (List.mem_append.2 (Or.inr (List.mem_singleton.2 rfl)))
    have hnew_take : newEntry ∈ sorted.take MAX_SESSIONS := by
      rcases (List.mem_append.1 (by rw [hsplit]; exact hnew_mem_sorted)) with h | h
      · exact h
      · exfalso
        have hslen : MAX_SESSIONS < sorted.length := by
          rwa [hperm.length_eq]
        have htlen : (sorted.take MAX_SESSIONS).length = MAX_SESSIONS := by
          rw [List.length_take]
          exact Nat.min_eq_left (Nat.le_of_lt hslen)
        have hne : sorted.take MAX_SESSIONS ≠ [] := by
          intro hnil
          rw [hnil] at htlen
          simp [MAX_SESSIONS] at htlen
        rcases List.exists_mem_of_ne_nil _ hne with ⟨k, hk⟩
        have hkold : k ∈ u.refreshTokens := by
          have hkp : k ∈ pushed := hperm.mem_iff.1 (List.mem_of_mem_take hk)
          rcases hmem_pushed k hkp with rfl | hko
          · exact absurd h (hdisj _ hk)
          · exact hko
        have : now ≤ k.createdAt := htd k hk newEntry h
        exact absurd this (Nat.not_le.2 (hold k hkold))
    refine ⟨_, rfl, ?_, ?_, ?_, ?_⟩
    · exact List.length_take_le _ _
    · exact List.mem_map.2 ⟨newEntry, hnew_take, rfl⟩
    · intro e he
      exact hperm.mem_iff.1 (List.mem_of_mem_take he)
    · intro e heu henot k hk
      have hep : e ∈ pushed := List.mem_append.2 (Or.inl heu)
      have hes : e ∈ sorted := hperm.mem_iff.2 hep
      have hedrop : e ∈ sorted.drop MAX_SESSIONS := by
        rcases List.mem_append.1 (by rw [hsplit]; exact hes) with h | h
        · exact absurd h henot
        · exact h
      have hkp : k ∈ pushed := hperm.mem_iff.1 (List.mem_of_mem_take hk)
      have hle : e.createdAt ≤ k.createdAt := htd k hk e hedrop
      have hne : e ≠ k := by
        intro h
        subst h
        exact hdisj e hk hedrop
      have hcne : e.createdAt ≠ k.createdAt := by
        intro h
        exact hne (hinj hep hkp h)
      exact Nat.lt_of_le_of_ne hle hcne
  · -- within the cap: the full pushed list is kept
    rw [if_neg hlen]
    refine ⟨_, rfl, ?_, ?_, ?_, ?_⟩
    · exact Nat.le_of_not_lt hlen
    · exact List.mem_map.2 ⟨newEntry, List.mem_append.2 (Or.inr (List.mem_singleton.2 rfl)), rfl⟩
    · intro e he
      exact he
    · intro e heu henot _ _
      exact absurd (List.mem_append.2 (Or.inl heu)) henot

/-- C1: for an issued refresh token t whose hash is stored for user u, the first
refresh call succeeds, consumes t's stored hash, and issues and stores a fresh
access/refresh pair; replaying t fails 401 with the revocation message and
purges all of u's stored refresh-token hashes, leaving the stored list empty. -/
theorem refresh_rotation_single_use_and_reuse_revokes_all_sessions
    (s : Secrets) (sha256 : SignedToken → String) (now t0 : Nat)
    (freshJti jti emailT uid : String) (db : UserDb) (u : UserDoc)
    (t t' : SignedToken)
    (ht : t = generateRefreshToken s t0 jti uid emailT)
    (ht' : t' = generateRefreshToken s now freshJti uid u.email)
    (hkeyed : ∀ i v, db i = some v → v.id = i)
    (hu : db uid = some u)
    (hexp : now ≤ t0 + REFRESH_TOKEN_EXPIRY)
    (hstored : (u.refreshTokens.any fun e => e.tokenHash = sha256 t) = true)
    (hcap : u.refreshTokens.length ≤ MAX_SESSIONS)
    (hfresh : sha256 t' ≠ sha256 t) :
    (refreshToken s sha256 now freshJti db (some t)).1 =
        RefreshResult.success (generateAccessToken s now uid u.email) t' ∧
    (∃ u1, (refreshToken s sha256 now freshJti db (some t)).2 uid = some u1 ∧
        (∀ e ∈ u1.refreshTokens, e.tokenHash ≠ sha256 t) ∧
        sha256 t' ∈ u1.refreshTokens.map RefreshTokenEntry.tokenHash) ∧
    (refreshToken s sha256 now freshJti
        ((refreshToken s sha256 now freshJti db (some t)).2) (some t)).1 =
      RefreshResult.unauthorized "Refresh token has been revoked" ∧
    (∃ u2, (refreshToken s sha256 now freshJti
        ((refreshToken s sha256 now freshJti db (some t)).2) (some t)).2 uid = some u2 ∧
        u2.refreshTokens = []) := by
  have hid : u.id = uid := hkeyed uid u hu
  subst hid
  have hpuid : t.payload.userId = u.id := by rw [ht]; rfl
  have hver : verifyRefreshToken s now t = Except.ok t.payload := by
    rw [ht]
    unfold verifyRefreshToken jwtVerify generateRefreshToken
    simp [hexp]
  have hgen : generateRefreshToken s now freshJti u.id u.email = t' := ht'.symm
  have hstored' : verifyStoredRefreshToken sha256 db u.id t = true := by
    unfold verifyStoredRefreshToken
    rw [hu]
    exact hstored
  have hcall1 : refreshToken s sha256 now freshJti db (some t) =
      (RefreshResult.success (generateAccessToken s now u.id u.email) t',
       storeRefreshToken sha256 now (removeRefreshToken sha256 db u.id t) u.id t') := by
    unfold refreshToken
    simp only [hver]
    rw [hpuid, hu]
    simp only [hstored', hgen, if_true]
  have hremove : removeRefreshToken sha256 db u.id t u.id =
      some { u with refreshTokens := u.refreshTokens.filter fun e => e.tokenHash ≠ sha256 t } := by
    unfold removeRefreshToken
    simp [hu]
  have hflt_len : (u.refreshTokens.filter fun e => e.tokenHash ≠ sha256 t).length <
      u.refreshTokens.length := by
    apply List.length_filter_lt_length_iff_exists.mpr
    rcases List.any_eq_true.1 hstored with ⟨e, he, hpe⟩
    refine ⟨e, he, ?_⟩
    simp only [decide_eq_true_eq] at hpe
    simp [hpe]
  have hlen' : ¬ (MAX_SESSIONS <
      ((u.refreshTokens.filter fun e => e.tokenHash ≠ sha256 t) ++
        [{ tokenHash := sha256 t', createdAt := now }] : List RefreshTokenEntry).length) := by
    simp only [List.length_append, List.length_cons, List.length_nil]
    omega
  have hstoreApp : storeRefreshToken sha256 now (removeRefreshToken sha256 db u.id t) u.id t' u.id =
      some { u with refreshTokens :=
        (u.refreshTokens.filter fun e => e.tokenHash ≠ sha256 t) ++
          [{ tokenHash := sha256 t', createdAt := now }] } := by
    simp only [storeRefreshToken, hremove]
    rw [if_neg hlen']
    simp
  have hnohash : ∀ e ∈ ((u.refreshTokens.filter fun x => x.tokenHash ≠ sha256 t) ++
      [{ tokenHash := sha256 t', createdAt := now }] : List RefreshTokenEntry),
      e.tokenHash ≠ sha256 t := by
    intro e he
    rcases List.mem_append.1 he with h | h
    · have := List.of_mem_filter h
      simpa using this
    · rw [List.mem_singleton.1 h]
      exact hfresh
  have hnotstored : verifyStoredRefreshToken sha256
      (storeRefreshToken sha256 now (removeRefreshToken sha256 db u.id t) u.id t') u.id t =
      false := by
    unfold verifyStoredRefreshToken
    rw [hstoreApp]
    simp only [List.any_eq_false, decide_eq_true_eq]
    intro x hx
    exact hnohash x hx
  have hcall2 : refreshToken s sha256 now freshJti
      (storeRefreshToken sha256 now (removeRefreshToken sha256 db u.id t) u.id t') (some t) =
      (RefreshResult.unauthorized "Refresh token has been revoked",
       removeAllRefreshTokens
         (storeRefreshToken sha256 now (removeRefreshToken sha256 db u.id t) u.id t')
         ({ u with refreshTokens :=
            (u.refreshTokens.filter fun e => e.tokenHash ≠ sha256 t) ++
              [{ tokenHash := sha256 t', createdAt := now }] } : UserDoc).id) := by
    unfold refreshToken
    simp only [hver]
    rw [hpuid, hstoreApp]
    simp only [hnotstored, Bool.false_eq_true, if_false]
  refine ⟨?_, ?_, ?_, ?_⟩
  · rw [hcall1]
  · refine ⟨_, by rw [hcall1]; exact hstoreApp, hnohash, ?_⟩
    exact List.mem_map.2
      ⟨{ tokenHash := sha256 t', createdAt := now },
        List.mem_append.2 (Or.inr (List.mem_singleton.2 rfl)), rfl⟩
  · rw [hcall1]
    simp only [hcall2]
  · rw [hcall1]
    simp only [hcall2]
    refine ⟨{ u with refreshTokens := [] }, ?_, rfl⟩
    unfold removeAllRefreshTokens
    simp only
    rw [hstoreApp]
    simp


/-- Witness for C1: a concrete user with one stored session; the first refresh
rotates the token, the replay is rejected and empties the session list. -/
theorem refresh_rotation_witness :
    (refreshToken ⟨"sa", "sr"⟩ (fun tok => tok.payload.jti.getD "") 5 "j1"
        (fun i => if i = "u1" then
            some { id := "u1", email := "a@b.c", refreshTokens := [⟨"j0", 0⟩] }
          else none)
        (some (generateRefreshToken ⟨"sa", "sr"⟩ 0 "j0" "u1" "x@y.z"))).1 =
      RefreshResult.success (generateAccessToken ⟨"sa", "sr"⟩ 5 "u1" "a@b.c")
        (generateRefreshToken ⟨"sa", "sr"⟩ 5 "j1" "u1" "a@b.c") ∧
    (∃ u1, (refreshToken ⟨"sa", "sr"⟩ (fun tok => tok.payload.jti.getD "") 5 "j1"
        (fun i => if i = "u1" then
            some { id := "u1", email := "a@b.c", refreshTokens := [⟨"j0", 0⟩] }
          else none)
        (some (generateRefreshToken ⟨"sa", "sr"⟩ 0 "j0" "u1" "x@y.z"))).2 "u1" = some u1 ∧
        (∀ e ∈ u1.refreshTokens,
          e.tokenHash ≠ (fun tok : SignedToken => tok.payload.jti.getD "")
            (generateRefreshToken ⟨"sa", "sr"⟩ 0 "j0" "u1" "x@y.z")) ∧
        (fun tok : SignedToken => tok.payload.jti.getD "")
            (generateRefreshToken ⟨"sa", "sr"⟩ 5 "j1" "u1" "a@b.c") ∈
          u1.refreshTokens.map RefreshTokenEntry.tokenHash) ∧
    (refreshToken ⟨"sa", "sr"⟩ (fun tok => tok.payload.jti.getD "") 5 "j1"
        ((refreshToken ⟨"sa", "sr"⟩ (fun tok => tok.payload.jti.getD "") 5 "j1"
          (fun i => if i = "u1" then
              some { id := "u1", email := "a@b.c", refreshTokens := [⟨"j0", 0⟩] }
            else none)
          (some (generateRefreshToken ⟨"sa", "sr"⟩ 0 "j0" "u1" "x@y.z"))).2)
        (some (generateRefreshToken ⟨"sa", "sr"⟩ 0 "j0" "u1" "x@y.z"))).1 =
      RefreshResult.unauthorized "Refresh token has been revoked" ∧
    (∃ u2, (refreshToken ⟨"sa", "sr"⟩ (fun tok => tok.payload.jti.getD "") 5 "j1"
        ((refreshToken ⟨"sa", "sr"⟩ (fun tok => tok.payload.jti.getD "") 5 "j1"
          (fun i => if i = "u1" then
              some { id := "u1", email := "a@b.c", refreshTokens := [⟨"j0", 0⟩] }
            else none)
          (some (generateRefreshToken ⟨"sa", "sr"⟩ 0 "j0" "u1" "x@y.z"))).2)
        (some (generateRefreshToken ⟨"sa", "sr"⟩ 0 "j0" "u1" "x@y.z"))).2 "u1" = some u2 ∧
        u2.refreshTokens = []) := by
  refine refresh_rotation_single_use_and_reuse_revokes_all_sessions
    { jwtSecret := "sa", jwtRefreshSecret := "sr" } (fun tok => tok.payload.jti.getD "")
    5 0 "j1" "j0" "x@y.z" "u1"
    (fun i => if i = "u1" then
        some { id := "u1", email := "a@b.c", refreshTokens := [⟨"j0", 0⟩] }
      else none)
    { id := "u1", email := "a@b.c", refreshTokens := [⟨"j0", 0⟩] }
    (generateRefreshToken { jwtSecret := "sa", jwtRefreshSecret := "sr" } 0 "j0" "u1" "x@y.z")
    (generateRefreshToken { jwtSecret := "sa", jwtRefreshSecret := "sr" } 5 "j1" "u1" "a@b.c")
    rfl rfl ?_ (by simp) (by decide) (by decide) (by decide) (by decide)
  intro i v hv
  by_cases hi : i = "u1"
  · subst hi
    simp at hv
    rw [← hv]
  · simp [hi] at hv

/-- Witness for C3: storing a sixth token into a full five-entry session list
keeps five entries, includes the new hash, and evicts exactly the oldest. -/
theorem storeRefreshToken_cap_witness :
    (fun i => if i = "u1" then
        some { id := "u1", email := "a@b.c",
               refreshTokens := [⟨"h1", 1⟩, ⟨"h2", 2⟩, ⟨"h3", 3⟩, ⟨"h4", 4⟩, ⟨"h5", 5⟩] }
      else none : UserDb) "u1" =
      some { id := "u1", email := "a@b.c",
             refreshTokens := [⟨"h1", 1⟩, ⟨"h2", 2⟩, ⟨"h3", 3⟩, ⟨"h4", 4⟩, ⟨"h5", 5⟩] } ∧
    ∃ u1, storeRefreshToken (fun t => t.secret) 6
        (fun i => if i = "u1" then
            some { id := "u1", email := "a@b.c",
                   refreshTokens := [⟨"h1", 1⟩, ⟨"h2", 2⟩, ⟨"h3", 3⟩, ⟨"h4", 4⟩, ⟨"h5", 5⟩] }
          else none)
        "u1" { payload := { userId := "u1", email := "a@b.c", type := TokenType.refresh,
                            jti := some "j", exp := 99 }, secret := "h6" } "u1" = some u1 ∧
      u1.refreshTokens.length ≤ MAX_SESSIONS ∧
      "h6" ∈ u1.refreshTokens.map RefreshTokenEntry.tokenHash ∧
      (∀ e ∈ u1.refreshTokens,
        e ∈ ([⟨"h1", 1⟩, ⟨"h2", 2⟩, ⟨"h3", 3⟩, ⟨"h4", 4⟩, ⟨"h5", 5⟩] : List RefreshTokenEntry) ++
          [{ tokenHash := "h6", createdAt := 6 }]) ∧
      (∀ e ∈ ([⟨"h1", 1⟩, ⟨"h2", 2⟩, ⟨"h3", 3⟩, ⟨"h4", 4⟩, ⟨"h5", 5⟩] : List RefreshTokenEntry),
        e ∉ u1.refreshTokens → ∀ k ∈ u1.refreshTokens, e.createdAt < k.createdAt) := by
  refine ⟨rfl, ?_⟩
  exact storeRefreshToken_cap_and_oldest_first_eviction (fun t => t.secret) 6 _ "u1"
    { payload := { userId := "u1", email := "a@b.c", type := TokenType.refresh,
                   jti := some "j", exp := 99 }, secret := "h6" }
    { id := "u1", email := "a@b.c",
      refreshTokens := [⟨"h1", 1⟩, ⟨"h2", 2⟩, ⟨"h3", 3⟩, ⟨"h4", 4⟩, ⟨"h5", 5⟩] }
    rfl (by decide) (by decide)


/-- C6: budget decoration is pure arithmetic on the inputs: for limit > 0 the
decorated object carries the stored budget's own fields unchanged together with
remaining = limit - spent and percentageUsed = 100*spent/limit. -/
theorem decorateBudget_pure_formulas (b : BudgetDoc) (spent : ℚ) (hlim : 0 < b.limit) :
    (decorateBudget b spent).userId = b.userId ∧
    (decorateBudget b spent).category = b.category ∧
    (decorateBudget b spent).limit = b.limit ∧
    (decorateBudget b spent).period = b.period ∧
    (decorateBudget b spent).spent = spent ∧
    (decorateBudget b spent).remaining = b.limit - spent ∧
    (decorateBudget b spent).percentageUsed = 100 * spent / b.limit := by
  refine ⟨rfl, rfl, rfl, rfl, rfl, rfl, ?_⟩
  unfold decorateBudget
  ring

/-- Witness for C6: decorating a 500-limit budget with 250 spent. -/
theorem decorateBudget_witness :
    (decorateBudget
        { userId := "u1", category := "food", limit := 500, period := Period.monthly }
        250).remaining = 500 - 250 ∧
    (decorateBudget
        { userId := "u1", category := "food", limit := 500, period := Period.monthly }
        250).percentageUsed = 100 * 250 / 500 := by
  have h := decorateBudget_pure_formulas
    { userId := "u1", category := "food", limit := 500, period := Period.monthly } 250
    (by norm_num)
  exact ⟨h.2.2.2.2.2.1, h.2.2.2.2.2.2⟩

/-- C4: for limit > 0 the derived status is over iff spent > limit, warning iff
0.8*limit < spent <= limit, and ok exactly otherwise; and the budget-status
listing is sorted so that no ok row precedes an over or warning row. -/
theorem budget_status_classification_and_ordering :
    (∀ (b : BudgetDoc) (spent : ℚ), 0 < b.limit →
      (((budgetStatusRow b spent).status = "over") ↔ b.limit < spent) ∧
      (((budgetStatusRow b spent).status = "warning") ↔
        0.8 * b.limit < spent ∧ spent ≤ b.limit) ∧
      (((budgetStatusRow b spent).status = "ok") ↔
        ¬ (b.limit < spent) ∧ ¬ (0.8 * b.limit < spent ∧ spent ≤ b.limit))) ∧
    (∀ (now : Now) (txns : List Txn) (userId : String) (budgets : List BudgetDoc),
      List.Pairwise
        (fun a b => ¬ (a.status = "ok" ∧ (b.status = "over" ∨ b.status = "warning")))
        (getBudgetStatus now txns userId budgets)) := by
  constructor
  · intro b spent hlim
    by_cases hov : b.limit < spent
    · have hst : (budgetStatusRow b spent).status = "over" := by
        simp [budgetStatusRow, hov]
      rw [hst]
      refine ⟨⟨fun _ => hov, fun _ => rfl⟩, ?_, ?_⟩
      · constructor
        · intro h
          exact absurd h (by decide)
        · intro h
          exact absurd hov (not_lt.2 h.2)
      · constructor
        · intro h
          exact absurd h (by decide)
        · intro h
          exact absurd hov h.1
    · by_cases hnear : b.limit * 0.8 < spent
      · have hst : (budgetStatusRow b spent).status = "warning" := by
          simp [budgetStatusRow, hov, hnear]
        rw [hst]
        refine ⟨?_, ?_, ?_⟩
        · constructor
          · intro h
            exact absurd h (by decide)
          · intro h
            exact absurd h hov
        · constructor
          · intro _
            exact ⟨by linarith, not_lt.1 hov⟩
          · intro _
            rfl
        · constructor
          · intro h
            exact absurd h (by decide)
          · intro h
            exact absurd ⟨by linarith, not_lt.1 hov⟩ h.2
      · have hst : (budgetStatusRow b spent).status = "ok" := by
          simp [budgetStatusRow, hov, hnear]
        rw [hst]
        refine ⟨?_, ?_, ?_⟩
        · constructor
          · intro h
            exact absurd h (by decide)
          · intro h
            exact absurd h hov
        · constructor
          · intro h
            exact absurd h (by decide)
          · intro h
            exact absurd h.1 (by intro h1; exact hnear (by linarith))
        · exact ⟨fun _ => ⟨hov, fun h => hnear (by linarith [h.1])⟩, fun _ => rfl⟩
  · intro now txns userId budgets
    haveI ht : IsTotal BudgetStatusRow (fun a b => statusOrder a.status ≤ statusOrder b.status) :=
      ⟨fun a b => Nat.le_total _ _⟩
    haveI htr : IsTrans BudgetStatusRow (fun a b => statusOrder a.status ≤ statusOrder b.status) :=
      ⟨fun _ _ _ => Nat.le_trans⟩
    have hs := List.sorted_insertionSort
      (fun a b => statusOrder a.status ≤ statusOrder b.status)
      (budgets.map fun budget =>
        budgetStatusRow budget
          (mapGetD (getSpentByCategory now txns userId budgets)
            (budgetSpentKey budget.category budget.period)))
    unfold getBudgetStatus
    refine List.Pairwise.imp ?_ hs
    intro a b hab hcon
    rw [hcon.1] at hab
    rcases hcon.2 with h | h <;> rw [h] at hab <;> simp [statusOrder] at hab

/-- Witness for C4: a 550 spend against a 500 monthly limit classifies as over,
and an empty budget list sorts trivially. -/
theorem budget_status_witness :
    (((budgetStatusRow
        { userId := "u", category := "food", limit := 500, period := Period.monthly }
        550).status = "over") ↔ (500 : ℚ) < 550) ∧
    List.Pairwise
      (fun a b => ¬ (a.status = "ok" ∧ (b.status = "over" ∨ b.status = "warning")))
      (getBudgetStatus { monthStart := 0, yearStart := 0 } [] "u" []) := by
  constructor
  · exact (budget_status_classification_and_ordering.1
      { userId := "u", category := "food", limit := 500, period := Period.monthly } 550
      (by norm_num)).1
  · exact budget_status_classification_and_ordering.2
      { monthStart := 0, yearStart := 0 } [] "u" []

/-- C7: each comparison row carries variance = budgeted - actual and
variancePercent = 100*variance/budgeted (0 when budgeted is 0), every monetary
field rounded to 2 decimal places; the listing is sorted ascending by variance;
and a 500 budget with no matching expenses yields variance 500 and
variancePercent 100. -/
theorem budget_vs_actual_variance_rounding_sorting :
    (∀ (b : BudgetDoc) (actual : ℚ),
      (comparisonRow b actual).category = b.category ∧
      (comparisonRow b actual).period = b.period ∧
      (comparisonRow b actual).budgeted = round2 b.limit ∧
      (comparisonRow b actual).actual = round2 actual ∧
      (comparisonRow b actual).variance = round2 (b.limit - actual) ∧
      (0 < b.limit →
        (comparisonRow b actual).variancePercent = round2 (100 * (b.limit - actual) / b.limit)) ∧
      (b.limit = 0 → (comparisonRow b actual).variancePercent = 0) ∧
      (∃ n : ℤ, (comparisonRow b actual).budgeted = (n : ℚ) / 100) ∧
      (∃ n : ℤ, (comparisonRow b actual).actual = (n : ℚ) / 100) ∧
      (∃ n : ℤ, (comparisonRow b actual).variance = (n : ℚ) / 100) ∧
      (∃ n : ℤ, (comparisonRow b actual).variancePercent = (n : ℚ) / 100)) ∧
    (∀ (txns : List Txn) (userId : String) (lo hi : Option Int) (budgets : List BudgetDoc),
      List.Pairwise (fun a b => a.variance ≤ b.variance)
        (budgetVsActualRows txns userId lo hi budgets)) ∧
    ((budgetVsActualRows [] "u" none none
        [{ userId := "u", category := "food", limit := 500, period := Period.monthly }]).map
          (fun r => (r.variance, r.variancePercent)) = [((500 : ℚ), (100 : ℚ))]) := by
  refine ⟨?_, ?_, ?_⟩
  · intro b actual
    refine ⟨rfl, rfl, rfl, rfl, rfl, ?_, ?_, ?_, ?_, ?_, ?_⟩
    · intro hpos
      unfold comparisonRow
      simp only [if_pos hpos]
      congr 1
      ring
    · intro hzero
      unfold comparisonRow
      simp only [hzero]
      norm_num [round2, jsRound]
    · exact ⟨jsRound (b.limit * 100), rfl⟩
    · exact ⟨jsRound (actual * 100), rfl⟩
    · exact ⟨jsRound ((b.limit - actual) * 100), rfl⟩
    · exact ⟨jsRound ((if b.limit > 0 then (b.limit - actual) / b.limit * 100 else 0) * 100), rfl⟩
  · intro txns userId lo hi budgets
    haveI : IsTotal ComparisonRow (fun a b => a.variance ≤ b.variance) :=
      ⟨fun a b => le_total _ _⟩
    haveI : IsTrans ComparisonRow (fun a b => a.variance ≤ b.variance) :=
      ⟨fun _ _ _ => le_trans⟩
    exact List.sorted_insertionSort _ _
  · have h500 : round2 (500 : ℚ) = 500 := by
      unfold round2 jsRound
      rw [show ⌊(500 : ℚ) * 100 + 1 / 2⌋ = 50000 from Int.floor_eq_iff.2 (by norm_num)]
      norm_num
    have h100 : round2 (100 : ℚ) = 100 := by
      unfold round2 jsRound
      rw [show ⌊(100 : ℚ) * 100 + 1 / 2⌋ = 10000 from Int.floor_eq_iff.2 (by norm_num)]
      norm_num
    simp only [budgetVsActualRows, groupSumByCategory, distinctList, strMapGetD,
      comparisonRow, List.filter_nil, List.map_nil, List.find?_nil, List.map_cons,
      List.insertionSort, List.orderedInsert, List.map_nil]
    norm_num [h500, h100]


/-- Witness for C7: a 500-limit budget with 0 actual gets variancePercent
100*(500-0)/500 rounded, and an empty listing sorts trivially. -/
theorem budget_vs_actual_witness :
    (comparisonRow
        { userId := "u", category := "food", limit := 500, period := Period.monthly }
        0).variancePercent = round2 (100 * (500 - 0) / 500) ∧
    List.Pairwise (fun a b => a.variance ≤ b.variance)
      (budgetVsActualRows [] "x" none none []) := by
  constructor
  · exact (budget_vs_actual_variance_rounding_sorting.1
      { userId := "u", category := "food", limit := 500, period := Period.monthly }
      0).2.2.2.2.2.1 (by norm_num)
  · exact budget_vs_actual_variance_rounding_sorting.2.1 [] "x" none none []


theorem distinctList_mem {α : Type} [DecidableEq α] (l : List α) (a : α) :
    a ∈ distinctList l ↔ a ∈ l := by
  induction l using distinctList.induct with
  | case1 => simp [distinctList]
  | case2 x xs ih =>
      rw [distinctList]
      by_cases hax : a = x
      · subst hax
        simp
      · simp only [List.mem_cons, ih, List.mem_filter]
        constructor
        · rintro (h | ⟨h, _⟩)
          · exact Or.inl h
          · exact Or.inr h
        · rintro (h | h)
          · exact Or.inl h
          · exact Or.inr ⟨h, by simpa using hax⟩

theorem distinctList_nodup {α : Type} [DecidableEq α] (l : List α) :
    (distinctList l).Nodup := by
  induction l using distinctList.induct with
  | case1 => simp [distinctList]
  | case2 x xs ih =>
      rw [distinctList]
      refine List.nodup_cons.2 ⟨?_, ih⟩
      intro hx
      have := (distinctList_mem _ x).1 hx
      simp at this


theorem find?_map_key {α β : Type} [DecidableEq α] (l : List α) (f : α → β) (c : α) :
    ((l.map fun x => (x, f x)).find? fun e => e.1 = c) =
      if c ∈ l then some (c, f c) else none := by
  induction l with
  | nil => simp
  | cons x xs ih =>
      by_cases hxc : x = c
      · subst hxc
        simp [List.find?_cons]
      · have hd : (decide (((x, f x) : α × β).1 = c)) = false := by simp [hxc]
        simp only [List.map_cons, List.find?_cons, hd, ih]
        by_cases hc : c ∈ xs
        · rw [if_pos hc, if_pos (List.mem_cons.2 (Or.inr hc))]
        · rw [if_neg hc, if_neg ?hnotin]
          case hnotin =>
            intro h
            rcases List.mem_cons.1 h with h1 | h1
            · exact hxc h1.symm
            · exact hc h1

theorem groupSumByCategory_find? (ts : List Txn) (c : String) :
    ((groupSumByCategory ts).find? fun e => e.1 = c) =
      if c ∈ ts.map Txn.category then
        some (c, ((ts.filter fun t => t.category = c).map Txn.amount).sum)
      else none := by
  unfold groupSumByCategory
  rw [find?_map_key]
  by_cases hc : c ∈ ts.map Txn.category
  · rw [if_pos ((distinctList_mem _ _).2 hc), if_pos hc]
  · rw [if_neg (fun h => hc ((distinctList_mem _ _).1 h)), if_neg hc]


theorem find?_flatten_by_period (seg : Period → List ((String × Period) × ℚ))
    (hseg : ∀ q e, e ∈ seg q → e.1.2 = q) (P : List Period) (hnd : P.Nodup)
    (p : Period) (hp : p ∈ P) (c : String) :
    ((P.map seg).flatten.find? fun e => e.1 = (c, p)) =
      (seg p).find? fun e => e.1 = (c, p) := by
  induction P with
  | nil => cases hp
  | cons q P ih =>
      rw [List.map_cons, List.flatten_cons, List.find?_append]
      rcases List.mem_cons.1 hp with rfl | hpP
      · have htail : ((P.map seg).flatten.find? fun e => e.1 = (c, p)) = none := by
          apply List.find?_eq_none.2
          intro e he
          rcases List.mem_flatten.1 he with ⟨l, hl, hel⟩
          rcases List.mem_map.1 hl with ⟨q2, hq2, rfl⟩
          have h2 := hseg q2 e hel
          simp only [decide_eq_true_eq]
          intro hkey
          rw [hkey] at h2
          have h3 : p = q2 := h2
          exact (List.nodup_cons.1 hnd).1 (h3 ▸ hq2)
        rw [htail]
        cases hfind : (seg p).find? fun e => e.1 = (c, p) <;> simp [Option.or]
      · have hq : ((seg q).find? fun e => e.1 = (c, p)) = none := by
          apply List.find?_eq_none.2
          intro e he
          have h2 := hseg q e he
          simp only [decide_eq_true_eq]
          intro hkey
          rw [hkey] at h2
          have h3 : p = q := h2
          exact (List.nodup_cons.1 hnd).1 (h3.symm ▸ hpP)
        rw [hq]
        simpa using ih (List.nodup_cons.1 hnd).2 hpP

theorem calculateSpentAmount_eq_sum (now : Now) (txns : List Txn)
    (userId category : String) (period : Period) :
    calculateSpentAmount now txns userId category period =
      ((txns.filter fun t => t.userId = userId ∧ t.category = category ∧
          t.type = TxnType.expense ∧ getPeriodStart now period ≤ t.date).map Txn.amount).sum := by
  unfold calculateSpentAmount
  set E := txns.filter fun t => t.userId = userId ∧ t.category = category ∧
      t.type = TxnType.expense ∧ getPeriodStart now period ≤ t.date with hE
  clear_value E
  cases E with
  | nil => simp
  | cons t ts => simp


theorem getSpentByCategory_find? (now : Now) (txns : List Txn) (userId : String)
    (budgets : List BudgetDoc) (c : String) (p : Period)
    (hp : p ∈ budgets.map BudgetDoc.period) :
    ((getSpentByCategory now txns userId budgets).find? fun e => e.1 = budgetSpentKey c p) =
      ((groupSumByCategory (txns.filter fun t => t.userId = userId ∧
          t.category ∈ ((budgets.filter fun b => b.period = p).map BudgetDoc.category) ∧
          t.type = TxnType.expense ∧ getPeriodStart now p ≤ t.date)).find?
        fun r => r.1 = c).map fun row => (budgetSpentKey row.1 p, row.2) := by
  rw [show getSpentByCategory now txns userId budgets =
      ((distinctList (budgets.map BudgetDoc.period)).map fun q =>
        (groupSumByCategory (txns.filter fun t => t.userId = userId ∧
            t.category ∈ ((budgets.filter fun b => b.period = q).map BudgetDoc.category) ∧
            t.type = TxnType.expense ∧ getPeriodStart now q ≤ t.date)).map
          fun row => (budgetSpentKey row.1 q, row.2)).flatten from rfl]
  simp only [budgetSpentKey]
  rw [find?_flatten_by_period _ ?hseg _ (distinctList_nodup _) p
    ((distinctList_mem _ _).2 hp) c]
  case hseg =>
    intro q e he
    rcases List.mem_map.1 he with ⟨row, _, rfl⟩
    rfl
  rw [List.find?_map]
  rw [show ((fun e => decide (e.1 = (c, p))) ∘
      (fun row : String × ℚ => ((row.1, p), row.2))) =
      fun r : String × ℚ => decide (r.1 = c) from ?hpred]
  case hpred =>
    funext r
    simp [Prod.ext_iff]

/-- C5: the batched spend map agrees with the naive per-budget aggregate on
every budget key (defaulting to 0 when no row exists), the naive aggregate is
the sum of the user's matching expense amounts from the period start, and the
batch issues one aggregation per distinct period present — never more than two
passes. -/
theorem batchSpent_equals_naive_and_pass_bound
    (now : Now) (txns : List Txn) (userId : String) (budgets : List BudgetDoc) :
    (∀ b ∈ budgets,
      mapGetD (getSpentByCategory now txns userId budgets)
          (budgetSpentKey b.category b.period) =
        calculateSpentAmount now txns userId b.category b.period) ∧
    (∀ b ∈ budgets,
      calculateSpentAmount now txns userId b.category b.period =
        ((txns.filter fun t => t.userId = userId ∧ t.category = b.category ∧
            t.type = TxnType.expense ∧ getPeriodStart now b.period ≤ t.date).map
          Txn.amount).sum) ∧
    aggregationPasses budgets ≤ 2 ∧
    (distinctList (budgets.map BudgetDoc.period)).Nodup ∧
    (∀ p ∈ distinctList (budgets.map BudgetDoc.period), p ∈ budgets.map BudgetDoc.period) := by
  refine ⟨?_, ?_, ?_, distinctList_nodup _, fun p hp => (distinctList_mem _ _).1 hp⟩
  · intro b hb
    have hp : b.period ∈ budgets.map BudgetDoc.period := List.mem_map_of_mem _ hb
    have hcat : b.category ∈
        ((budgets.filter fun x => x.period = b.period).map BudgetDoc.category) := by
      apply List.mem_map_of_mem
      exact List.mem_filter.2 ⟨hb, by simp⟩
    unfold mapGetD
    rw [getSpentByCategory_find? now txns userId budgets b.category b.period hp]
    rw [groupSumByCategory_find?]
    by_cases hcmem : b.category ∈ (txns.filter fun t => t.userId = userId ∧
        t.category ∈ ((budgets.filter fun x => x.period = b.period).map BudgetDoc.category) ∧
        t.type = TxnType.expense ∧ getPeriodStart now b.period ≤ t.date).map Txn.category
    · rw [if_pos hcmem]
      simp only [Option.map_some']
      rw [calculateSpentAmount_eq_sum]
      congr 1
      rw [List.filter_filter]
      congr 1
      apply List.filter_congr
      intro t _ht
      apply Bool.coe_iff_coe.1
      simp only [Bool.and_eq_true, decide_eq_true_eq]
      constructor
      · rintro ⟨hc1, huid, _hmem, h3, h4⟩
        exact ⟨huid, hc1, h3, h4⟩
      · rintro ⟨huid, hc1, h3, h4⟩
        exact ⟨hc1, huid, by rw [hc1]; exact hcat, h3, h4⟩
    · rw [if_neg hcmem]
      simp only [Option.map_none']
      rw [calculateSpentAmount_eq_sum]
      have hnil : (txns.filter fun t => t.userId = userId ∧ t.category = b.category ∧
          t.type = TxnType.expense ∧ getPeriodStart now b.period ≤ t.date) = [] := by
        apply List.filter_eq_nil_iff.2
        intro t ht hsingle
        simp only [decide_eq_true_eq] at hsingle
        apply hcmem
        apply List.mem_map.2
        refine ⟨t, ?_, hsingle.2.1⟩
        apply List.mem_filter.2
        refine ⟨ht, ?_⟩
        simp only [decide_eq_true_eq]
        exact ⟨hsingle.1, by rw [hsingle.2.1]; exact hcat, hsingle.2.2⟩
      rw [hnil]
      simp
  · intro b _hb
    exact calculateSpentAmount_eq_sum now txns userId b.category b.period
  · unfold aggregationPasses
    have hcard : Fintype.card Period = 2 := rfl
    calc (distinctList (budgets.map BudgetDoc.period)).length
        ≤ Fintype.card Period := List.Nodup.length_le_card (distinctList_nodup _)
      _ = 2 := hcard


/-- Witness for C5: one food budget and two in-period expenses; the batched map
and the naive aggregate agree (both 250) and the batch needs at most 2 passes. -/
theorem batchSpent_witness :
    mapGetD
        (getSpentByCategory { monthStart := 0, yearStart := 0 }
          [{ userId := "u", type := TxnType.expense, amount := 100, category := "food", date := 5 },
           { userId := "u", type := TxnType.expense, amount := 150, category := "food", date := 7 }]
          "u"
          [{ userId := "u", category := "food", limit := 500, period := Period.monthly }])
        (budgetSpentKey "food" Period.monthly) =
      calculateSpentAmount { monthStart := 0, yearStart := 0 }
        [{ userId := "u", type := TxnType.expense, amount := 100, category := "food", date := 5 },
         { userId := "u", type := TxnType.expense, amount := 150, category := "food", date := 7 }]
        "u" "food" Period.monthly ∧
    aggregationPasses
        [{ userId := "u", category := "food", limit := 500, period := Period.monthly }] ≤ 2 := by
  have h := batchSpent_equals_naive_and_pass_bound { monthStart := 0, yearStart := 0 }
    [{ userId := "u", type := TxnType.expense, amount := 100, category := "food", date := 5 },
     { userId := "u", type := TxnType.expense, amount := 150, category := "food", date := 7 }]
    "u"
    [{ userId := "u", category := "food", limit := 500, period := Period.monthly }]
  exact ⟨h.1 _ (List.mem_singleton.2 rfl), h.2.2.1⟩


/-- C8: a malformed startDate or endDate makes the budget-vs-actual endpoint
fail with the validation error for every transaction and budget store (so no
aggregation can influence the outcome); well-formed bounds are passed to the
transaction filter, whose two bounds are inclusive. -/
theorem analytics_date_validation_and_inclusive_bounds :
    (∀ (jsParse : String → Option Int) (txns : List Txn) (budgets : List BudgetDoc)
        (userId sd : String) (endDate : Option String),
      isValidDate jsParse sd = false →
      getBudgetVsActual jsParse txns budgets userId (some sd) endDate =
        Except.error "Invalid startDate format. Use ISO 8601 (YYYY-MM-DD)") ∧
    (∀ (jsParse : String → Option Int) (txns : List Txn) (budgets : List BudgetDoc)
        (userId : String) (startDate : Option String) (ed : String),
      (∀ sd, startDate = some sd → isValidDate jsParse sd = true) →
      isValidDate jsParse ed = false →
      getBudgetVsActual jsParse txns budgets userId startDate (some ed) =
        Except.error "Invalid endDate format. Use ISO 8601 (YYYY-MM-DD)") ∧
    (∀ (jsParse : String → Option Int) (txns : List Txn) (budgets : List BudgetDoc)
        (userId sd ed : String),
      isValidDate jsParse sd = true → isValidDate jsParse ed = true →
      getBudgetVsActual jsParse txns budgets userId (some sd) (some ed) =
        Except.ok (budgetVsActualRows txns userId (jsParse sd) (jsParse ed) budgets)) ∧
    (∀ lo hi d : Int, dateInRange (some lo) (some hi) d = true ↔ lo ≤ d ∧ d ≤ hi) := by
  refine ⟨?_, ?_, ?_, ?_⟩
  · intro jsParse txns budgets userId sd endDate hsd
    unfold getBudgetVsActual
    simp [hsd]
  · intro jsParse txns budgets userId startDate ed hstart hed
    unfold getBudgetVsActual
    cases startDate with
    | none => simp [hed]
    | some sd => simp [hstart sd rfl, hed]
  · intro jsParse txns budgets userId sd ed hsd hed
    unfold getBudgetVsActual
    simp [hsd, hed]
  · intro lo hi d
    unfold dateInRange
    simp

/-- Witness for C8: a non-ISO string is rejected regardless of the store or the
host parser, two well-formed bounds are accepted and forwarded, and a date
equal to either bound passes the inclusive filter. -/
theorem analytics_date_validation_witness :
    getBudgetVsActual (fun _ => some 0) [] [] "u" (some "not-a-date") none =
      Except.error "Invalid startDate format. Use ISO 8601 (YYYY-MM-DD)" ∧
    getBudgetVsActual (fun _ => some 0) [] [] "u" (some "2024-01-15")
        (some "2024-02-15T10:30:00Z") =
      Except.ok (budgetVsActualRows [] "u" (some 0) (some 0) []) ∧
    (dateInRange (some 3) (some 9) 3 = true ↔ (3 : ℤ) ≤ 3 ∧ (3 : ℤ) ≤ 9) := by
  refine ⟨?_, ?_, ?_⟩
  · exact analytics_date_validation_and_inclusive_bounds.1 (fun _ => some 0) [] [] "u"
      "not-a-date" none (by decide)
  · exact analytics_date_validation_and_inclusive_bounds.2.2.1 (fun _ => some 0) [] [] "u"
      "2024-01-15" "2024-02-15T10:30:00Z" (by decide) (by decide)
  · exact analytics_date_validation_and_inclusive_bounds.2.2.2 3 9 3

/-- C9: for any user, updating or deleting a default category (whose owner is
null, per the seeding invariant) fails with the 404 not-found error, because the
ownership-filtered lookup excludes it; the store is left unchanged, so no
update or delete ever touches a default category. -/
theorem default_category_update_delete_not_found
    (db : CategoryDb) (uid : String) (c : CategoryDoc) (body : CategoryUpdateBody)
    (hmem : c ∈ db)
    (hdef : c.isDefault = true)
    (howner : c.userId = none)
    (hids : (db.map CategoryDoc.id).Nodup)
    (hvalid : isValidObjectId c.id = true) :
    updateCategory db uid c.id body = (Except.error (404, "Category not found"), db) ∧
    deleteCategory db uid c.id = (Except.error (404, "Category not found"), db) := by
  have hfind : (db.find? fun x => x.id = c.id ∧ x.userId = some uid) = none := by
    apply List.find?_eq_none.2
    intro x hx
    simp only [decide_eq_true_eq]
    rintro ⟨hid, hux⟩
    have hxc : x = c := List.inj_on_of_nodup_map hids hx hmem hid
    rw [hxc, howner] at hux
    cases hux
  constructor
  · unfold updateCategory
    rw [if_neg (by simp [hvalid]), hfind]
  · unfold deleteCategory
    rw [if_neg (by simp [hvalid]), hfind]

/-- Witness for C9: a concrete default category cannot be updated or deleted by
a concrete user; both calls 404 and leave the store unchanged. -/
theorem default_category_witness :
    updateCategory
        [{ id := "0123456789abcdefabcdef01", name := "food and dining",
           type := TxnType.expense, icon := "x", color := "#FF6B6B",
           isDefault := true, userId := none }]
        "u1" "0123456789abcdefabcdef01"
        { name := some "hijack", icon := none, color := none } =
      (Except.error (404, "Category not found"),
        [{ id := "0123456789abcdefabcdef01", name := "food and dining",
           type := TxnType.expense, icon := "x", color := "#FF6B6B",
           isDefault := true, userId := none }]) ∧
    deleteCategory
        [{ id := "0123456789abcdefabcdef01", name := "food and dining",
           type := TxnType.expense, icon := "x", color := "#FF6B6B",
           isDefault := true, userId := none }]
        "u1" "0123456789abcdefabcdef01" =
      (Except.error (404, "Category not found"),
        [{ id := "0123456789abcdefabcdef01", name := "food and dining",
           type := TxnType.expense, icon := "x", color := "#FF6B6B",
           isDefault := true, userId := none }]) := by
  exact default_category_update_delete_not_found
    [{ id := "0123456789abcdefabcdef01", name := "food and dining",
       type := TxnType.expense, icon := "x", color := "#FF6B6B",
       isDefault := true, userId := none }]
    "u1"
    { id := "0123456789abcdefabcdef01", name := "food and dining",
      type := TxnType.expense, icon := "x", color := "#FF6B6B",
      isDefault := true, userId := none }
    { name := some "hijack", icon := none, color := none }
    (List.mem_singleton.2 rfl) rfl rfl (by decide) (by decide)


theorem mem_getCategories (db : CategoryDb) (user : Option TokenPayload)
    (qtype : Option TxnType) (c : CategoryDoc) :
    c ∈ getCategories db user qtype ↔
      c ∈ db ∧ typeMatches qtype c = true ∧ categoryVisible user c = true := by
  unfold getCategories
  rw [(List.perm_insertionSort _ _).mem_iff]
  simp [List.mem_filter, Bool.and_eq_true, and_assoc]

/-- C10: the optionally-authenticated category listing serves requests without
a Bearer header as anonymous, returning exactly the default categories (under
the optional type filter); a Bearer token that fails verification yields a 401
error rather than an anonymous downgrade; and a verified token yields exactly
the defaults plus the categories owned by the token's user. -/
theorem optional_auth_category_listing :
    (∀ (s : Secrets) (now : Nat) (isProd : Bool) (db : CategoryDb) (qtype : Option TxnType),
      ∃ l, optionalAuthGetCategories s now isProd db none qtype = Except.ok l ∧
        ∀ c, c ∈ l ↔ c ∈ db ∧ typeMatches qtype c = true ∧ c.isDefault = true) ∧
    (∀ (s : Secrets) (now : Nat) (isProd : Bool) (db : CategoryDb) (qtype : Option TxnType)
        (raw : String),
      ∃ l, optionalAuthGetCategories s now isProd db (some (AuthHeader.other raw)) qtype =
          Except.ok l ∧
        ∀ c, c ∈ l ↔ c ∈ db ∧ typeMatches qtype c = true ∧ c.isDefault = true) ∧
    (∀ (s : Secrets) (now : Nat) (isProd : Bool) (db : CategoryDb) (qtype : Option TxnType)
        (t : SignedToken) (e : String),
      verifyAccessToken s now t = Except.error e →
      optionalAuthGetCategories s now isProd db (some (AuthHeader.bearer t)) qtype =
        Except.error (401, getErrorMessage isProd e "Invalid or expired token")) ∧
    (∀ (s : Secrets) (now : Nat) (isProd : Bool) (db : CategoryDb) (qtype : Option TxnType)
        (t : SignedToken) (p : TokenPayload),
      verifyAccessToken s now t = Except.ok p →
      ∃ l, optionalAuthGetCategories s now isProd db (some (AuthHeader.bearer t)) qtype =
          Except.ok l ∧
        ∀ c, c ∈ l ↔ c ∈ db ∧ typeMatches qtype c = true ∧
          (c.isDefault = true ∨ c.userId = some p.userId)) := by
  refine ⟨?_, ?_, ?_, ?_⟩
  · intro s now isProd db qtype
    refine ⟨getCategories db none qtype, rfl, ?_⟩
    intro c
    rw [mem_getCategories]
    simp [categoryVisible]
  · intro s now isProd db qtype raw
    refine ⟨getCategories db none qtype, rfl, ?_⟩
    intro c
    rw [mem_getCategories]
    simp [categoryVisible]
  · intro s now isProd db qtype t e hver
    unfold optionalAuthGetCategories
    simp only [hver]
  · intro s now isProd db qtype t p hver
    refine ⟨getCategories db (some p) qtype, ?_, ?_⟩
    · unfold optionalAuthGetCategories
      simp only [hver]
    · intro c
      rw [mem_getCategories]
      simp [categoryVisible, Bool.or_eq_true]

/-- Witness for C10: one default and one user-owned category; the anonymous
listing contains only the default, an invalid Bearer token is rejected 401,
and the owner's listing contains both. -/
theorem optional_auth_category_witness :
    (∃ l, optionalAuthGetCategories { jwtSecret := "sa", jwtRefreshSecret := "sr" } 0 false
        [{ id := "d1", name := "food", type := TxnType.expense, icon := "i", color := "#FF6B6B",
           isDefault := true, userId := none },
         { id := "c1", name := "mine", type := TxnType.expense, icon := "i", color := "#4D96FF",
           isDefault := false, userId := some "u1" }]
        none none = Except.ok l ∧
      ∀ c, c ∈ l ↔
        c ∈ [{ id := "d1", name := "food", type := TxnType.expense, icon := "i",
               color := "#FF6B6B", isDefault := true, userId := none },
             { id := "c1", name := "mine", type := TxnType.expense, icon := "i",
               color := "#4D96FF", isDefault := false, userId := some "u1" }] ∧
          typeMatches none c = true ∧ c.isDefault = true) ∧
    optionalAuthGetCategories { jwtSecret := "sa", jwtRefreshSecret := "sr" } 0 false []
        (some (AuthHeader.bearer
          { payload := { userId := "u1", email := "e", type := TokenType.access,
                         jti := none, exp := 99 }, secret := "wrong" }))
        none =
      Except.error (401, getErrorMessage false "Invalid or expired access token"
        "Invalid or expired token") := by
  constructor
  · exact optional_auth_category_listing.1 { jwtSecret := "sa", jwtRefreshSecret := "sr" } 0 false
      [{ id := "d1", name := "food", type := TxnType.expense, icon := "i", color := "#FF6B6B",
         isDefault := true, userId := none },
       { id := "c1", name := "mine", type := TxnType.expense, icon := "i", color := "#4D96FF",
         isDefault := false, userId := some "u1" }]
      none
  · exact optional_auth_category_listing.2.2.1 { jwtSecret := "sa", jwtRefreshSecret := "sr" }
      0 false []
      none
      { payload := { userId := "u1", email := "e", type := TokenType.access,
                     jti := none, exp := 99 }, secret := "wrong" }
      "Invalid or expired access token" rfl

end FinBoss
